import Mathlib

/-!
Verification development for the `grepfuzz` image blur classifier.

The Rust sources are embedded shallowly:
* grayscale images become a `width`/`height`/row-major pixel-list structure;
* the `image` crate's `imageops::filter3x3` is modelled by `filter3x3` below,
  following its documented/actual behaviour (interior-only 3x3 correlation,
  division by the kernel sum with a zero sum mapped to 1 — the identity for
  every kernel this repository uses — clamping of each output sample to
  `[0, DEFAULT_MAX_VALUE]`, i.e. `[0,255]` for `u8` buffers and `[0,1]` for
  `f32` buffers, a zeroed one-pixel border, and a panic when a dimension is 0);
* `f32`/`f64` arithmetic is idealised as exact rational arithmetic (no claim
  below depends on floating-point rounding);
* panics are modelled as `Option.none`, fallible IO as `Except`, and the
  filesystem / image decoder consulted by the streaming loop as an explicit
  oracle function passed to the embedded loop.
-/

namespace Grepfuzz

/-- A grayscale 8-bit image as held by `ImageBuffer<Luma<u8>, Vec<u8>>`:
`width`, `height`, and row-major pixel data (pixel values are `u8` in the
source; they are carried as `Int` here so that convolution responses live in
the same carrier). -/
structure Image where
  width : Nat
  height : Nat
  pixels : List Int
deriving Repr, DecidableEq

/-- `ImageBuffer::get_pixel` at `(x, y)`: row-major index `y * width + x`. -/
def Image.getPixel (img : Image) (x y : Nat) : Int :=
  img.pixels.getD (y * img.width + x) 0

/-- Clamping of a convolution sample to `[0, maxVal]`, as performed by
`imageops::filter3x3` before storing a sample back into the buffer
(`clamp(t, 0.0, max)` with `max = S::DEFAULT_MAX_VALUE`). -/
def clampTo (maxVal t : Int) : Int :=
  max 0 (min maxVal t)

/-- The 3x3 correlation at `(x, y)` as computed inside `imageops::filter3x3`:
kernel entry `k[j*3+i]` multiplies the pixel at `(x+i-1, y+j-1)` (the crate's
`taps` order). Only evaluated at interior points `1 ≤ x`, `1 ≤ y`. -/
def conv3x3 (k : List Int) (img : Image) (x y : Nat) : Int :=
  (List.range 9).foldl
    (fun acc idx => acc + k.getD idx 0 * img.getPixel (x + idx % 3 - 1) (y + idx / 3 - 1)) 0

/-- Model of `imageops::filter3x3` from the `image` crate (an external
dependency of this repository). The crate computes the correlation only for
`x in 1..width-1`, `y in 1..height-1`, divides by the kernel sum (a zero sum
is replaced by 1; every kernel used in this repository sums to 0, so the
division is the identity and is omitted here), clamps each sample to
`[0, maxVal]` and leaves the one-pixel border at the zero-initialised value.
With a zero dimension the `u32` range `1..dim-1` underflows and the first
`get_pixel` access is out of bounds, a panic: modelled as `none`. -/
def filter3x3 (maxVal : Int) (k : List Int) (img : Image) : Option Image :=
  if img.width = 0 ∨ img.height = 0 then none
  else some ⟨img.width, img.height,
    (List.range (img.width * img.height)).map fun idx =>
      let x := idx % img.width
      let y := idx / img.width
      if 1 ≤ x ∧ x + 1 < img.width ∧ 1 ≤ y ∧ y + 1 < img.height
      then clampTo maxVal (conv3x3 k img x y)
      else 0⟩

/-- The discrete Laplacian kernel `[0,1,0, 1,-4,1, 0,1,0]` from
`blur_laplacian.rs` / `image_analysis.rs`. -/
def laplacianKernel : List Int := [0, 1, 0, 1, -4, 1, 0, 1, 0]

/-- The horizontal Sobel kernel from `blur_tenengrad.rs`. -/
def sobelXKernel : List Int := [-1, 0, 1, -2, 0, 2, -1, 0, 1]

/-- The vertical Sobel kernel from `blur_tenengrad.rs`. -/
def sobelYKernel : List Int := [-1, -2, -1, 0, 0, 0, 1, 2, 1]

/-- Population mean and variance loop shared by `analyze_blur_variance`,
`debug_blur_analysis` and `LaplacianVarianceDetector::detect`: sum the
filtered samples, divide by `n`, then sum squared deviations and divide by
`n` again (`f64` accumulation idealised as exact rationals). -/
def population_variance (ps : List Int) : ℚ :=
  let n : ℚ := ps.length
  let mean := ps.foldl (fun acc p => acc + (p : ℚ)) 0 / n
  ps.foldl (fun acc p => acc + ((p : ℚ) - mean) ^ 2) 0 / n

/-- `image_analysis::analyze_blur_variance` (the same code is the body of
`LaplacianVarianceDetector::detect` in `blur_laplacian.rs`): convert the
`u8` image to `f32` (value-preserving), filter with the Laplacian kernel —
the `f32` output buffer clamps each sample to `[0,1]`, `f32::DEFAULT_MAX_VALUE`
being `1.0` — and return the population variance of the filtered samples
together with the `variance < threshold` verdict. -/
def analyze_blur_variance (img : Image) (threshold : ℚ) : Option (ℚ × Bool) :=
  (filter3x3 1 laplacianKernel img).map fun lap =>
    let variance := population_variance lap.pixels
    (variance, decide (variance < threshold))

/-- `image_analysis::tenengrad_sharpness` (the same code is inlined in
`TenengradDetector::detect`): filter the `u8` image with both Sobel kernels —
directly on the `u8` buffer, so each response sample is clamped to `[0,255]` —
then sum `gx*gx + gy*gy` over every pixel of the filtered buffers and divide
by `width*height`. -/
def tenengrad_sharpness (img : Image) : Option ℚ :=
  match filter3x3 255 sobelXKernel img, filter3x3 255 sobelYKernel img with
  | some sx, some sy =>
      some ((List.range (img.width * img.height)).foldl
        (fun acc idx =>
          let gx : ℚ := (sx.pixels.getD idx 0 : Int)
          let gy : ℚ := (sy.pixels.getD idx 0 : Int)
          acc + (gx * gx + gy * gy)) 0 / ((img.width : ℚ) * (img.height : ℚ)))
  | _, _ => none

/-- Reflect-101 border indexing (`BORDER_DEFAULT` in OpenCV): `-1 ↦ 1`,
`n ↦ n-2`. Part of the spec-modelled OpenCV backend below. -/
def reflect101 (n : Nat) (i : Int) : Nat :=
  let j : Int := if i < 0 then -i else if (n : Int) ≤ i then 2 * (n : Int) - 2 - i else i
  min (max 0 j).toNat (n - 1)

/-- Modelled from the spec: the `opencv` crate's `imgproc::laplacian` call in
`OpenCvLaplacianDetector::detect` is external to this repository. Section 4.4
of the spec describes it as the same Laplacian response as section 4.2
computed by an alternate backend with its own border handling
(`BORDER_DEFAULT`, i.e. reflect-101) and `CV_64F` output (no 8-bit clamping).
This definition computes that response at every pixel. -/
def opencv_laplacian (img : Image) : List ℚ :=
  (List.range (img.width * img.height)).map fun idx =>
    let x := idx % img.width
    let y := idx / img.width
    ((List.range 9).foldl
      (fun acc kidx =>
        acc + laplacianKernel.getD kidx 0 *
          img.getPixel (reflect101 img.width ((x : Int) + (kidx % 3 : Nat) - 1))
            (reflect101 img.height ((y : Int) + (kidx / 3 : Nat) - 1))) 0 : Int)

/-- `OpenCvLaplacianDetector::detect` from `blur_opencv.rs`: the Laplacian
response (external backend, modelled above), then — in the repository's own
code — the arithmetic mean, the sum of squared deviations with an element
count, `variance = if count > 0 { sum_sq / count } else { 0.0 }`, and the
`variance < threshold` verdict. -/
def opencv_detect (img : Image) (threshold : ℚ) : ℚ × Bool :=
  let d := opencv_laplacian img
  let count := d.length
  let mean := d.foldl (fun acc v => acc + v) 0 / (count : ℚ)
  let sum_sq := d.foldl (fun acc v => acc + (v - mean) ^ 2) 0
  let variance := if 0 < count then sum_sq / (count : ℚ) else 0
  (variance, decide (variance < threshold))

/-- The three concrete `BlurDetector` implementations of the repository
(`LaplacianVarianceDetector`, `TenengradDetector`, `OpenCvLaplacianDetector`),
each carrying its configured `threshold` field. -/
inductive Detector where
  | laplacian (threshold : ℚ)
  | tenengrad (threshold : ℚ)
  | opencv (threshold : ℚ)
deriving Repr, DecidableEq

/-- The configured `threshold` field of a detector. -/
def Detector.threshold : Detector → ℚ
  | .laplacian t => t
  | .tenengrad t => t
  | .opencv t => t

/-- `BlurDetector::detect` for each concrete detector. The Laplacian and
Tenengrad detectors panic (modelled `none`) inside `filter3x3` when a
dimension is zero; the OpenCV detector's own variance loop carries an
explicit `count > 0` guard. -/
def Detector.detect : Detector → Image → Option (ℚ × Bool)
  | .laplacian t, img => analyze_blur_variance img t
  | .tenengrad t, img =>
      (tenengrad_sharpness img).map fun val => (val, decide (val < t))
  | .opencv t, img => some (opencv_detect img t)

/-- `BlurDetector::name`. Only the Tenengrad impl actually defines `name()` in
the sources; the other two identifiers are the spec's stable names
("Laplacian", "OpenCVLaplacian"). No claim depends on these strings. -/
def Detector.name : Detector → String
  | .laplacian _ => "Laplacian"
  | .tenengrad _ => "Tenengrad"
  | .opencv _ => "OpenCVLaplacian"

/-- One `BlurResult` record (`blur_result.rs`, as constructed in `lib.rs` and
`main.rs`). -/
structure BlurResult where
  name : String
  value : ℚ
  threshold : ℚ
  is_blurry : Bool
deriving Repr, DecidableEq

/-- The downcast chain of `lib.rs::process_image` /
`process_image_buffer` (lines 42-48 / 72-78): it tries
`LaplacianVarianceDetector`, then `TenengradDetector`, then
`OpenCvLaplacianDetector`, and falls back to `0.0`. All three concrete types
are covered, so it always recovers the configured threshold. -/
def lib_recovered_threshold : Detector → ℚ
  | .laplacian t => t
  | .tenengrad t => t
  | .opencv t => t

/-- The downcast chain of `main.rs::process_image` (lines 278-282): it tries
`LaplacianVarianceDetector`, then `TenengradDetector`, and falls back to
`0.0` — `OpenCvLaplacianDetector` is absent from this chain. -/
def main_recovered_threshold : Detector → ℚ
  | .laplacian t => t
  | .tenengrad t => t
  | .opencv _ => 0

/-- The constant placeholder string `main.rs::process_image` records as each
result's name (`std::any::type_name::<&Box<dyn BlurDetector>>()`). -/
def main_result_name (_ : Detector) : String :=
  "&alloc::boxed::Box<dyn grepfuzz::blur_detector::BlurDetector>"

/-- The detector loop shared by `lib.rs::process_image`,
`lib.rs::process_image_buffer` and `main.rs::process_image`: for each
detector run `detect`, push a `BlurResult` whose threshold is recovered by
the given downcast chain, and conjoin `is_blurry` into the `all_blurry`
accumulator (initially `true`). A detector panic propagates (`none`). -/
def det_loop (thrOf : Detector → ℚ) (nameOf : Detector → String) (img : Image) :
    List Detector → Bool → List BlurResult → Option (Bool × List BlurResult)
  | [], all_blurry, results => some (all_blurry, results)
  | det :: dets, all_blurry, results =>
    match det.detect img with
    | none => none
    | some (val, is_b) =>
      det_loop thrOf nameOf img dets (all_blurry && is_b)
        (results ++ [⟨nameOf det, val, thrOf det, is_b⟩])

/-- The tuple returned by `lib.rs::process_image` /
`process_image_buffer`, given record-style field names:
`(all_blurry, results, size, width, height, focal)`. -/
structure ProcessOutcome where
  overall_blurry : Bool
  results : List BlurResult
  byte_size : Nat
  width : Nat
  height : Nat
  focal_length : Option String
deriving Repr, DecidableEq

/-- `lib.rs::process_image_buffer` (lines 61-84): run every detector over the
in-memory image and return the aggregate, the per-detector results, byte
size `0`, the dimensions, and focal length `None` ("for in-memory images,
size and focal are not available"). -/
def process_image_buffer (img : Image) (detectors : List Detector) : Option ProcessOutcome :=
  (det_loop lib_recovered_threshold Detector.name img detectors true []).map
    fun r => ⟨r.1, r.2, 0, img.width, img.height, none⟩

/-- `lib.rs::process_image` (lines 28-58). File IO is embedded as oracles:
`decode` for `image::open(path)?.grayscale().to_luma8()`, `file_size` for
`std::fs::metadata(path)?.len()`, and `focal_of` for
`metadata::extract_focal_length`. The outer `Option` models a detector panic,
the inner `Except` the function's `Result`. -/
def process_image (decode : String → Except String Image)
    (file_size : String → Except String Nat) (focal_of : String → Option String)
    (path : String) (detectors : List Detector) :
    Option (Except String ProcessOutcome) :=
  match decode path with
  | .error e => some (.error e)
  | .ok img =>
    match det_loop lib_recovered_threshold Detector.name img detectors true [] with
    | none => none
    | some r =>
      match file_size path with
      | .error e => some (.error e)
      | .ok size => some (.ok ⟨r.1, r.2, size, img.width, img.height, focal_of path⟩)

/-- Continuation-byte test for UTF-8 validation: `0x80 ≤ b ≤ 0xBF`. -/
def isCont (b : Nat) : Bool :=
  128 ≤ b && b ≤ 191

/-- Model of `String::from_utf8` validity (the check performed on each record
of the stream loop in `main.rs`, line 220): standard UTF-8 well-formedness —
no overlong encodings, no surrogates, code points at most `0x10FFFF`. -/
def validUTF8 : List Nat → Bool
  | [] => true
  | b :: rest =>
    if b ≤ 127 then validUTF8 rest
    else if 194 ≤ b && b ≤ 223 then
      match rest with
      | b2 :: r => isCont b2 && validUTF8 r
      | [] => false
    else if b = 224 then
      match rest with
      | b2 :: b3 :: r => (160 ≤ b2 && b2 ≤ 191) && isCont b3 && validUTF8 r
      | _ => false
    else if 225 ≤ b && b ≤ 236 then
      match rest with
      | b2 :: b3 :: r => isCont b2 && isCont b3 && validUTF8 r
      | _ => false
    else if b = 237 then
      match rest with
      | b2 :: b3 :: r => (128 ≤ b2 && b2 ≤ 159) && isCont b3 && validUTF8 r
      | _ => false
    else if 238 ≤ b && b ≤ 239 then
      match rest with
      | b2 :: b3 :: r => isCont b2 && isCont b3 && validUTF8 r
      | _ => false
    else if b = 240 then
      match rest with
      | b2 :: b3 :: b4 :: r => (144 ≤ b2 && b2 ≤ 191) && isCont b3 && isCont b4 && validUTF8 r
      | _ => false
    else if 241 ≤ b && b ≤ 243 then
      match rest with
      | b2 :: b3 :: b4 :: r => isCont b2 && isCont b3 && isCont b4 && validUTF8 r
      | _ => false
    else if b = 244 then
      match rest with
      | b2 :: b3 :: b4 :: r => (128 ≤ b2 && b2 ≤ 143) && isCont b3 && isCont b4 && validUTF8 r
      | _ => false
    else false

/-- `BufRead::read_until(0, buf)`: the longest prefix up to and including the
first NUL byte (the whole input when it holds no NUL), paired with the
remaining bytes. -/
def readUntil0 : List Nat → List Nat × List Nat
  | [] => ([], [])
  | b :: rest =>
    if b = 0 then ([0], rest)
    else
      let p := readUntil0 rest
      (b :: p.1, p.2)

theorem readUntil0_append : ∀ l : List Nat, (readUntil0 l).1 ++ (readUntil0 l).2 = l := by
  intro l
  induction l with
  | nil => rfl
  | cons b rest ih =>
    by_cases hb : b = 0
    · subst hb; simp [readUntil0]
    · simp [readUntil0, hb, ih]

theorem readUntil0_fst_ne : ∀ l : List Nat, l ≠ [] → (readUntil0 l).1 ≠ [] := by
  intro l hl
  cases l with
  | nil => exact absurd rfl hl
  | cons b rest =>
    by_cases hb : b = 0
    · subst hb; simp [readUntil0]
    · simp [readUntil0, hb]

theorem readUntil0_snd_lt : ∀ l : List Nat, l ≠ [] → (readUntil0 l).2.length < l.length := by
  intro l
  induction l with
  | nil => intro h; exact absurd rfl h
  | cons b rest ih =>
    intro _
    by_cases hb : b = 0
    · subst hb; simp [readUntil0]
    · simp only [readUntil0, if_neg hb, List.length_cons]
      cases rest with
      | nil => simp [readUntil0]
      | cons c cs => exact Nat.lt_trans (ih (by simp)) (Nat.lt_succ_self _)

/-- The `if buffer.last() == Some(&0) { buffer.pop(); }` step of the stream
loop: drop a single trailing NUL from a record buffer. -/
def stripTrailingNul (c : List Nat) : List Nat :=
  if c.getLast? = some 0 then c.dropLast else c

/-- The records produced by the stream loop of `main.rs` (lines 211-219):
repeatedly `read_until` NUL, stop at end of input, and strip the single
trailing NUL of each chunk. The terminal record need not be NUL-terminated. -/
def recordsOf (l : List Nat) : List (List Nat) :=
  if h : l = [] then []
  else
    stripTrailingNul (readUntil0 l).1 :: recordsOf (readUntil0 l).2
termination_by l.length
decreasing_by exact readUntil0_snd_lt l h

/-- The passthrough loop of `main.rs` (lines 189-204): repeatedly
`read_until` NUL and write each non-empty chunk — including its NUL
delimiter, which is not stripped in this mode — back out verbatim. -/
def passthroughRun (l : List Nat) : List Nat :=
  if h : l = [] then []
  else
    let p := readUntil0 l
    (if p.1.isEmpty then [] else p.1) ++ passthroughRun p.2
termination_by l.length
decreasing_by exact readUntil0_snd_lt l h

/-- The classified tuple the stream loop of `main.rs` destructures per path
(line 226): `(is_blurry, variance, tenengrad, size, width, height, focal)`. -/
structure StreamClassified where
  is_blurry : Bool
  variance : ℚ
  tenengrad : ℚ
  size : Nat
  width : Nat
  height : Nat
  focal : Option String
deriving Repr, DecidableEq

/-- The body of the stream loop of `main.rs` (lines 220-243) for one record.
`fs` is the filesystem/decoder oracle standing for `process_image` on a real
path (keyed by the record's raw bytes — `String::from_utf8` preserves them);
`asciiRender` abstracts the `-a` branch's `println!` text (floating-point
formatting, exercised by no claim). Returns the bytes written to stdout and
the diagnostics sent to stderr. An invalid-UTF-8 record is skipped silently
(`Err(_) => continue`); a decode failure is reported to stderr and skipped;
a classified record is emitted iff the `FilterMode` gate
`(blur_mode && is_blurry) || (!blur_mode && !is_blurry)` passes, as the raw
path bytes plus a trailing NUL in the default (non-ascii) style. -/
def recordStep (asciiRender : List Nat → StreamClassified → List Nat)
    (blur_mode ascii : Bool) (fs : List Nat → Except String StreamClassified)
    (rec : List Nat) : List Nat × List (List Nat × String) :=
  if validUTF8 rec then
    match fs rec with
    | .ok r =>
      if (blur_mode && r.is_blurry) || (!blur_mode && !r.is_blurry) then
        (if ascii then asciiRender rec r else rec ++ [0], [])
      else ([], [])
    | .error e => ([], [(rec, e)])
  else ([], [])

/-- The stream loop of `main.rs` over a list of records: concatenate the
stdout bytes and the stderr diagnostics of the per-record steps, in order. -/
def streamRun (asciiRender : List Nat → StreamClassified → List Nat)
    (blur_mode ascii : Bool) (fs : List Nat → Except String StreamClassified) :
    List (List Nat) → List Nat × List (List Nat × String)
  | [] => ([], [])
  | rec :: recs =>
    let step := recordStep asciiRender blur_mode ascii fs rec
    let rest := streamRun asciiRender blur_mode ascii fs recs
    (step.1 ++ rest.1, step.2 ++ rest.2)

/-- The whole stream-of-paths mode: split stdin into records, then run the
loop. -/
def mainStream (asciiRender : List Nat → StreamClassified → List Nat)
    (blur_mode ascii : Bool) (fs : List Nat → Except String StreamClassified)
    (input : List Nat) : List Nat × List (List Nat × String) :=
  streamRun asciiRender blur_mode ascii fs (recordsOf input)

/-- The two filter modes of the spec; `blurMode` is the boolean `blur_mode`
the stream loop of `main.rs` actually branches on. -/
inductive FilterMode where
  | passBlurry
  | passSharp
deriving Repr, DecidableEq

/-- `PassBlurry` corresponds to `blur_mode == true` in `main.rs`. -/
def FilterMode.blurMode : FilterMode → Bool
  | .passBlurry => true
  | .passSharp => false

/-! ### Loop invariant of the detector loop -/

theorem det_loop_spec (thrOf : Detector → ℚ) (nameOf : Detector → String) (img : Image) :
    ∀ (dets : List Detector) (acc : Bool) (res : List BlurResult) (b : Bool)
      (rs : List BlurResult),
      det_loop thrOf nameOf img dets acc res = some (b, rs) →
      ∃ extra, rs = res ++ extra ∧ b = (acc && extra.all (fun r => r.is_blurry)) := by
  intro dets
  induction dets with
  | nil =>
    intro acc res b rs h
    simp only [det_loop, Option.some.injEq, Prod.mk.injEq] at h
    exact ⟨[], by simp [← h.2], by simp [← h.1]⟩
  | cons d ds ih =>
    intro acc res b rs h
    rw [det_loop] at h
    cases hd : d.detect img with
    | none => rw [hd] at h; exact absurd h (by simp)
    | some vb =>
      rw [hd] at h
      obtain ⟨v, ib⟩ := vb
      obtain ⟨extra, hrs, hb⟩ := ih _ _ _ _ h
      refine ⟨⟨nameOf d, v, thrOf d, ib⟩ :: extra, ?_, ?_⟩
      · rw [hrs]; simp
      · rw [hb]; simp [Bool.and_assoc]

/-- A 1x1 image with one mid-gray pixel, used to instantiate hypotheses of
several theorems at a concrete input. -/
def wimg : Image := ⟨1, 1, [7]⟩

/-- A decoder oracle that decodes every path to `wimg`. -/
def wdecode : String → Except String Image := fun _ => .ok wimg

/-- A metadata oracle that reports 3 bytes for every path. -/
def wsize : String → Except String Nat := fun _ => .ok 3

/-- A focal-length oracle that finds no EXIF data. -/
def wfocal : String → Option String := fun _ => none

/-- C1: for every image evaluated against the configured detector list
(`process_image` and `process_image_buffer`), the returned `overall_blurry`
flag equals the logical AND of the `is_blurry` flags of all per-detector
readings in the result, and for an empty detector list it is vacuously
`true` (every image classified blurry). -/
theorem c1_overall_blurry_conjunction (img : Image) (dets : List Detector)
    (r : ProcessOutcome) (decode : String → Except String Image)
    (file_size : String → Except String Nat) (focal_of : String → Option String)
    (path : String) (dets' : List Detector) (r' : ProcessOutcome)
    (hb : process_image_buffer img dets = some r)
    (hp : process_image decode file_size focal_of path dets' = some (.ok r')) :
    r.overall_blurry = r.results.all (fun res => res.is_blurry)
    ∧ r'.overall_blurry = r'.results.all (fun res => res.is_blurry)
    ∧ process_image_buffer img [] = some ⟨true, [], 0, img.width, img.height, none⟩ := by
  refine ⟨?_, ?_, ?_⟩
  · unfold process_image_buffer at hb
    rcases Option.map_eq_some'.mp hb with ⟨p, hloop, hr⟩
    obtain ⟨extra, hrs, hov⟩ := det_loop_spec _ _ _ _ _ _ _ _ hloop
    rw [← hr]
    simp only at hrs ⊢
    rw [hov, hrs]
    simp
  · unfold process_image at hp
    cases hdec : decode path with
    | error e => rw [hdec] at hp; simp at hp
    | ok img' =>
      rw [hdec] at hp
      dsimp only at hp
      cases hloop : det_loop lib_recovered_threshold Detector.name img' dets' true [] with
      | none => rw [hloop] at hp; simp at hp
      | some p =>
        rw [hloop] at hp
        dsimp only at hp
        cases hsz : file_size path with
        | error e => rw [hsz] at hp; simp at hp
        | ok n =>
          rw [hsz] at hp
          dsimp only at hp
          simp only [Option.some.injEq, Except.ok.injEq] at hp
          obtain ⟨extra, hrs, hov⟩ := det_loop_spec _ _ _ _ _ _ _ _ hloop
          rw [← hp]
          simp only at hrs ⊢
          rw [hov, hrs]
          simp
  · simp [process_image_buffer, det_loop]

/-- Witness for C1: both `process_image_buffer` and `process_image` at a
concrete 1x1 image and the Laplacian detector. -/
theorem c1_witness :
    (process_image_buffer wimg [.laplacian 1]
        = some ⟨true, [⟨"Laplacian", 0, 1, true⟩], 0, 1, 1, none⟩)
    ∧ (process_image wdecode wsize wfocal "p" [.laplacian 1]
        = some (.ok ⟨true, [⟨"Laplacian", 0, 1, true⟩], 3, 1, 1, none⟩))
    ∧ ((⟨true, [⟨"Laplacian", 0, 1, true⟩], 0, 1, 1, none⟩ : ProcessOutcome).overall_blurry
        = (⟨true, [⟨"Laplacian", 0, 1, true⟩], 0, 1, 1, none⟩ : ProcessOutcome).results.all
            (fun res => res.is_blurry)
      ∧ (⟨true, [⟨"Laplacian", 0, 1, true⟩], 3, 1, 1, none⟩ : ProcessOutcome).overall_blurry
        = (⟨true, [⟨"Laplacian", 0, 1, true⟩], 3, 1, 1, none⟩ : ProcessOutcome).results.all
            (fun res => res.is_blurry)
      ∧ process_image_buffer wimg [] = some ⟨true, [], 0, wimg.width, wimg.height, none⟩) := by
  have hb : process_image_buffer wimg [.laplacian 1]
      = some ⟨true, [⟨"Laplacian", 0, 1, true⟩], 0, 1, 1, none⟩ := by
    norm_num [process_image_buffer, det_loop, Detector.detect, analyze_blur_variance,
      filter3x3, population_variance, laplacianKernel, conv3x3, clampTo, Image.getPixel,
      wimg, Detector.name, lib_recovered_threshold, List.range_succ]
  have hp : process_image wdecode wsize wfocal "p" [.laplacian 1]
      = some (.ok ⟨true, [⟨"Laplacian", 0, 1, true⟩], 3, 1, 1, none⟩) := by
    norm_num [process_image, wdecode, wsize, wfocal, det_loop, Detector.detect,
      analyze_blur_variance, filter3x3, population_variance, laplacianKernel, conv3x3,
      clampTo, Image.getPixel, wimg, Detector.name, lib_recovered_threshold, List.range_succ]
  exact ⟨hb, hp, c1_overall_blurry_conjunction wimg [.laplacian 1] _ wdecode wsize wfocal
    "p" [.laplacian 1] _ hb hp⟩

/-- C2: for each of the three detectors, the `is_blurry` flag returned by
`detect` equals `value < threshold` exactly, so an image whose metric value
equals the threshold is classified sharp, not blurry. -/
theorem c2_blurry_iff_value_below_threshold (d : Detector) (img : Image) (v : ℚ) (b : Bool)
    (h : d.detect img = some (v, b)) :
    b = decide (v < d.threshold) ∧ (v = d.threshold → b = false) := by
  have hb : b = decide (v < d.threshold) := by
    cases d with
    | laplacian t =>
      unfold Detector.detect analyze_blur_variance at h
      rcases Option.map_eq_some'.mp h with ⟨lap, _, heq⟩
      simp only [Prod.mk.injEq] at heq
      rw [← heq.2, ← heq.1]; rfl
    | tenengrad t =>
      unfold Detector.detect at h
      rcases Option.map_eq_some'.mp h with ⟨val, _, heq⟩
      simp only [Prod.mk.injEq] at heq
      rw [← heq.2, ← heq.1]; rfl
    | opencv t =>
      unfold Detector.detect at h
      simp only [Option.some.injEq] at h
      have h1 : v = (opencv_detect img t).1 := by rw [h]
      have h2 : b = (opencv_detect img t).2 := by rw [h]
      rw [h2, h1]; rfl
  exact ⟨hb, fun hv => by rw [hb, hv]; simp⟩

/-- Witness for C2: the Laplacian detector on a concrete 1x1 image, where
the variance is 0 and the threshold is 1. -/
theorem c2_witness :
    Detector.detect (.laplacian 1) wimg = some (0, true)
    ∧ (true = decide ((0 : ℚ) < (Detector.laplacian 1).threshold)
       ∧ ((0 : ℚ) = (Detector.laplacian 1).threshold → true = false)) := by
  have h : Detector.detect (.laplacian 1) wimg = some (0, true) := by
    norm_num [Detector.detect, analyze_blur_variance, filter3x3, population_variance,
      laplacianKernel, conv3x3, clampTo, Image.getPixel, wimg, List.range_succ]
  exact ⟨h, c2_blurry_iff_value_below_threshold (.laplacian 1) wimg 0 true h⟩

/-- C7 (code bug): a 0x0 image presented to the metric suite does not fail
fast with a recoverable error; the Laplacian and Tenengrad detectors panic
inside `filter3x3` (the `u32` range `1..dim-1` underflows and the first
`get_pixel` access is out of bounds), modelled `none`, and that panic
propagates out of `process_image_buffer` — there is no width/height
acceptance check anywhere in the code. -/
theorem c7_zero_area_image_panics (t : ℚ) :
    Detector.detect (.laplacian t) ⟨0, 0, []⟩ = none
    ∧ Detector.detect (.tenengrad t) ⟨0, 0, []⟩ = none
    ∧ process_image_buffer ⟨0, 0, []⟩ [.laplacian t, .tenengrad t, .opencv t] = none := by
  refine ⟨?_, ?_, ?_⟩ <;>
    simp [Detector.detect, analyze_blur_variance, tenengrad_sharpness, filter3x3,
      process_image_buffer, det_loop]

/-- C9: in `main.rs::process_image`, the threshold recorded in each
`BlurResult` is recovered by the downcast chain that omits
`OpenCvLaplacianDetector`; for that detector the recorded threshold is `0.0`
rather than the configured one (which `lib.rs`'s chain does recover), even
though the `is_blurry` verdict was computed against the real threshold. -/
theorem c9_main_downcast_threshold (t : ℚ) (img : Image) (v : ℚ) (b : Bool)
    (h : Detector.detect (.opencv t) img = some (v, b)) :
    main_recovered_threshold (.opencv t) = 0
    ∧ lib_recovered_threshold (.opencv t) = t
    ∧ det_loop main_recovered_threshold main_result_name img [.opencv t] true []
        = some (b, [⟨main_result_name (.opencv t), v, 0, b⟩])
    ∧ b = decide (v < t) := by
  refine ⟨rfl, rfl, ?_, ?_⟩
  · rw [det_loop, h]
    simp [det_loop, main_recovered_threshold]
  · unfold Detector.detect at h
    simp only [Option.some.injEq] at h
    have h1 : v = (opencv_detect img t).1 := by rw [h]
    have h2 : b = (opencv_detect img t).2 := by rw [h]
    rw [h2, h1]; rfl

/-- Witness for C9: the OpenCV detector with threshold 1 on a concrete 1x1
image records threshold 0 in the main-loop result while its verdict used
threshold 1. -/
theorem c9_witness :
    Detector.detect (.opencv 1) wimg = some (0, true)
    ∧ (main_recovered_threshold (.opencv 1) = 0
       ∧ lib_recovered_threshold (.opencv 1) = 1
       ∧ det_loop main_recovered_threshold main_result_name wimg [.opencv 1] true []
           = some (true, [⟨main_result_name (.opencv 1), 0, 0, true⟩])
       ∧ true = decide ((0 : ℚ) < 1)) := by
  have h : Detector.detect (.opencv 1) wimg = some (0, true) := by
    norm_num [Detector.detect, opencv_detect, opencv_laplacian, laplacianKernel,
      reflect101, Image.getPixel, wimg, List.range_succ]
  exact ⟨h, c9_main_downcast_threshold 1 wimg 0 true h⟩

/-- C10: `process_image_buffer` always returns byte size 0 and focal length
`None`, for every image and every detector list — `0`, not an absent value,
is the sentinel for unknown size. -/
theorem c10_buffer_size_zero_focal_none (img : Image) (dets : List Detector)
    (r : ProcessOutcome) (h : process_image_buffer img dets = some r) :
    r.byte_size = 0 ∧ r.focal_length = none := by
  unfold process_image_buffer at h
  rcases Option.map_eq_some'.mp h with ⟨p, _, hr⟩
  rw [← hr]
  exact ⟨rfl, rfl⟩

/-- Witness for C10: a concrete in-memory classification whose byte size is
0 and focal length is `none`. -/
theorem c10_witness :
    process_image_buffer wimg [.laplacian 1]
        = some ⟨true, [⟨"Laplacian", 0, 1, true⟩], 0, 1, 1, none⟩
    ∧ ((⟨true, [⟨"Laplacian", 0, 1, true⟩], 0, 1, 1, none⟩ : ProcessOutcome).byte_size = 0
       ∧ (⟨true, [⟨"Laplacian", 0, 1, true⟩], 0, 1, 1, none⟩ : ProcessOutcome).focal_length
           = none) := by
  have hb : process_image_buffer wimg [.laplacian 1]
      = some ⟨true, [⟨"Laplacian", 0, 1, true⟩], 0, 1, 1, none⟩ := by
    norm_num [process_image_buffer, det_loop, Detector.detect, analyze_blur_variance,
      filter3x3, population_variance, laplacianKernel, conv3x3, clampTo, Image.getPixel,
      wimg, Detector.name, lib_recovered_threshold, List.range_succ]
  exact ⟨hb, c10_buffer_size_zero_focal_none wimg [.laplacian 1] _ hb⟩

/-! ### C3: what the Tenengrad metric actually computes -/

/-- Following the claim's words, for comparison with the source-derived
definitions: the mean over all pixels of `gx*gx + gy*gy` where `gx`, `gy`
are the raw Sobel responses of the 8-bit-as-float pixels, NOT clamped or
re-quantized to 8 bits (border ring contributing 0, as in the source's
boundary policy). -/
def tenengrad_value_spec (img : Image) : ℚ :=
  ((List.range (img.width * img.height)).map fun idx =>
    let x := idx % img.width
    let y := idx / img.width
    if 1 ≤ x ∧ x + 1 < img.width ∧ 1 ≤ y ∧ y + 1 < img.height
    then
      (let gx : ℚ := (conv3x3 sobelXKernel img x y : Int)
       let gy : ℚ := (conv3x3 sobelYKernel img x y : Int)
       gx * gx + gy * gy)
    else 0).sum / ((img.width : ℚ) * (img.height : ℚ))

/-- The quantity the source actually computes, written directly: the mean
over all pixels of `gx*gx + gy*gy` where `gx`, `gy` are the Sobel responses
clamped to `[0, 255]` — re-quantized through the intermediate `u8` buffers —
at interior pixels, and 0 on the one-pixel border. -/
def tenengrad_clamped_mean (img : Image) : ℚ :=
  (List.range (img.width * img.height)).foldl
    (fun acc idx =>
      let x := idx % img.width
      let y := idx / img.width
      acc + (if 1 ≤ x ∧ x + 1 < img.width ∧ 1 ≤ y ∧ y + 1 < img.height
        then
          (let gx : ℚ := (clampTo 255 (conv3x3 sobelXKernel img x y) : Int)
           let gy : ℚ := (clampTo 255 (conv3x3 sobelYKernel img x y) : Int)
           gx * gx + gy * gy)
        else 0)) 0 / ((img.width : ℚ) * (img.height : ℚ))

theorem foldl_congr_mem {f g : ℚ → Nat → ℚ} :
    ∀ (l : List Nat) (b : ℚ), (∀ a ∈ l, ∀ q, f q a = g q a) →
      l.foldl f b = l.foldl g b := by
  intro l
  induction l with
  | nil => intro b _; rfl
  | cons x xs ih =>
    intro b hfg
    simp only [List.foldl_cons]
    rw [hfg x (by simp), ih _ (fun a ha q => hfg a (by simp [ha]) q)]

theorem getD_map_range (f : Nat → Int) (n a : Nat) (ha : a < n) :
    ((List.range n).map f).getD a 0 = f a := by
  rw [List.getD_eq_getElem?_getD, List.getElem?_eq_getElem (by simpa using ha)]
  simp

/-- Whenever `tenengrad_sharpness` returns a value (it panics only on a
zero dimension), that value is the clamped-gradient mean. -/
theorem tenengrad_sharpness_eq (img : Image) (val : ℚ)
    (h : tenengrad_sharpness img = some val) : val = tenengrad_clamped_mean img := by
  unfold tenengrad_sharpness at h
  cases hx : filter3x3 255 sobelXKernel img with
  | none => rw [hx] at h; simp at h
  | some sx =>
    cases hy : filter3x3 255 sobelYKernel img with
    | none => rw [hx, hy] at h; simp at h
    | some sy =>
      rw [hx, hy] at h
      dsimp only at h
      simp only [Option.some.injEq] at h
      have hw : ¬(img.width = 0 ∨ img.height = 0) := by
        intro hc
        rw [filter3x3, if_pos hc] at hx
        exact absurd hx (by simp)
      have hxs : sx.pixels = (List.range (img.width * img.height)).map (fun idx =>
          let x := idx % img.width
          let y := idx / img.width
          if 1 ≤ x ∧ x + 1 < img.width ∧ 1 ≤ y ∧ y + 1 < img.height
          then clampTo 255 (conv3x3 sobelXKernel img x y) else 0) := by
        rw [filter3x3, if_neg hw] at hx
        simp only [Option.some.injEq] at hx
        rw [← hx]
      have hys : sy.pixels = (List.range (img.width * img.height)).map (fun idx =>
          let x := idx % img.width
          let y := idx / img.width
          if 1 ≤ x ∧ x + 1 < img.width ∧ 1 ≤ y ∧ y + 1 < img.height
          then clampTo 255 (conv3x3 sobelYKernel img x y) else 0) := by
        rw [filter3x3, if_neg hw] at hy
        simp only [Option.some.injEq] at hy
        rw [← hy]
      rw [← h]
      unfold tenengrad_clamped_mean
      congr 1
      apply foldl_congr_mem
      intro a ha q
      have halt : a < img.width * img.height := List.mem_range.mp ha
      simp only [hxs, hys, getD_map_range _ _ _ halt]
      by_cases hc : 1 ≤ a % img.width ∧ a % img.width + 1 < img.width
          ∧ 1 ≤ a / img.width ∧ a / img.width + 1 < img.height
      · simp only [if_pos hc]
      · simp only [if_neg hc]
        simp

/-- A 3x3 image whose left column is white and the rest black: the true
Sobel `gx` response at the centre is `-1020`, which the `u8` gradient
buffers clamp to `0`. -/
def cimg3 : Image := ⟨3, 3, [255, 0, 0, 255, 0, 0, 255, 0, 0]⟩

set_option maxHeartbeats 4000000 in
/-- C3 (counterexample): on `cimg3` the Tenengrad detector computes metric
value `0` — the negative Sobel response was clamped away by the `u8`
buffers — while the claim's unclamped floating-point formula gives
`(-1020)^2 / 9 = 115600`. The intermediate gradients ARE re-quantized to 8
bits, contradicting the claim. -/
theorem c3_counterexample :
    Detector.detect (.tenengrad 1000) cimg3 = some (0, true)
    ∧ tenengrad_value_spec cimg3 = 115600
    ∧ (0 : ℚ) ≠ 115600 := by
  refine ⟨?_, ?_, by norm_num⟩
  · norm_num [Detector.detect, tenengrad_sharpness, filter3x3, sobelXKernel, sobelYKernel,
      conv3x3, clampTo, Image.getPixel, cimg3, List.range_succ]
  · norm_num [tenengrad_value_spec, sobelXKernel, sobelYKernel, conv3x3,
      Image.getPixel, cimg3, List.range_succ]

/-- C3 (amended): for every image on which the Tenengrad detector returns
(all images with both dimensions nonzero), the metric value is the sum over
all pixels of `gx*gx + gy*gy` divided by the pixel count, where `gx` and
`gy` are the Sobel responses of the original 8-bit pixels clamped to
`[0, 255]` (re-quantized to 8 bits by the intermediate `u8` gradient
buffers) at interior pixels and 0 on the one-pixel border, and the verdict
is `value < threshold`. -/
theorem c3_amended_quantized_gradients (t : ℚ) (img : Image) (v : ℚ) (b : Bool)
    (h : Detector.detect (.tenengrad t) img = some (v, b)) :
    v = tenengrad_clamped_mean img ∧ b = decide (v < t) := by
  unfold Detector.detect at h
  rcases Option.map_eq_some'.mp h with ⟨val, hval, heq⟩
  simp only [Prod.mk.injEq] at heq
  obtain ⟨hv, hb⟩ := heq
  refine ⟨?_, ?_⟩
  · rw [← hv]
    exact tenengrad_sharpness_eq img val hval
  · rw [← hb, hv]

set_option maxHeartbeats 1000000 in
/-- Witness for the amended C3: the Tenengrad detector on a concrete 1x1
image. -/
theorem c3_amended_witness :
    Detector.detect (.tenengrad 5) wimg = some (0, true)
    ∧ ((0 : ℚ) = tenengrad_clamped_mean wimg ∧ true = decide ((0 : ℚ) < 5)) := by
  have h : Detector.detect (.tenengrad 5) wimg = some (0, true) := by
    norm_num [Detector.detect, tenengrad_sharpness, filter3x3, sobelXKernel, sobelYKernel,
      conv3x3, clampTo, Image.getPixel, wimg, List.range_succ]
  exact ⟨h, c3_amended_quantized_gradients 5 wimg 0 true h⟩

/-! ### Streaming-loop theorems -/

theorem streamRun_append (ar : List Nat → StreamClassified → List Nat) (bm ascii : Bool)
    (fs : List Nat → Except String StreamClassified) :
    ∀ l₁ l₂ : List (List Nat),
      streamRun ar bm ascii fs (l₁ ++ l₂)
        = ((streamRun ar bm ascii fs l₁).1 ++ (streamRun ar bm ascii fs l₂).1,
           (streamRun ar bm ascii fs l₁).2 ++ (streamRun ar bm ascii fs l₂).2) := by
  intro l₁ l₂
  induction l₁ with
  | nil => simp [streamRun]
  | cons rec recs ih => simp [streamRun, ih]

/-- C4: in stream-of-paths mode, a record that is not valid UTF-8 is skipped
silently — it contributes nothing to stdout or to the diagnostic channel and
the surrounding records are processed exactly as without it — while a
valid-UTF-8 record whose classification fails contributes exactly one
diagnostic and no output, the surrounding records again processed
unchanged: no per-item failure aborts the stream. -/
theorem c4_stream_error_resilience (ar : List Nat → StreamClassified → List Nat)
    (bm ascii : Bool) (fs : List Nat → Except String StreamClassified)
    (pre post : List (List Nat)) (bad rec : List Nat) (e : String)
    (hbad : validUTF8 bad = false) (hrec : validUTF8 rec = true)
    (hfs : fs rec = .error e) :
    streamRun ar bm ascii fs (pre ++ bad :: post) = streamRun ar bm ascii fs (pre ++ post)
    ∧ streamRun ar bm ascii fs (pre ++ rec :: post)
        = ((streamRun ar bm ascii fs pre).1 ++ (streamRun ar bm ascii fs post).1,
           (streamRun ar bm ascii fs pre).2
             ++ (rec, e) :: (streamRun ar bm ascii fs post).2) := by
  have h1 : recordStep ar bm ascii fs bad = ([], []) := by
    simp [recordStep, hbad]
  have h2 : recordStep ar bm ascii fs rec = ([], [(rec, e)]) := by
    simp [recordStep, hrec, hfs]
  constructor
  · rw [streamRun_append, streamRun_append]
    have hskip : streamRun ar bm ascii fs (bad :: post) = streamRun ar bm ascii fs post := by
      simp [streamRun, h1]
    rw [hskip]
  · rw [streamRun_append]
    simp [streamRun, h2]

/-- The stdout renderer of the `-a` branch instantiated trivially, for
concrete witnesses (no claim exercises its text). -/
def ar0 : List Nat → StreamClassified → List Nat := fun _ _ => []

/-- A concrete filesystem/decoder oracle: the empty path and the path `"c"`
(byte 99) fail to decode; every other path decodes to a blurry image. -/
def fs0 : List Nat → Except String StreamClassified :=
  fun r => if r = [] ∨ r = [99] then .error "E" else .ok ⟨true, 0, 0, 0, 0, 0, none⟩

/-- Witness for C4: a concrete three-record stream around an invalid-UTF-8
record `[255]` and around a failing record `[99]`. -/
theorem c4_witness :
    (validUTF8 [255] = false ∧ validUTF8 [99] = true ∧ fs0 [99] = .error "E")
    ∧ (streamRun ar0 true false fs0 ([[97]] ++ [255] :: [[98]])
         = streamRun ar0 true false fs0 ([[97]] ++ [[98]])
       ∧ streamRun ar0 true false fs0 ([[97]] ++ [99] :: [[98]])
         = ((streamRun ar0 true false fs0 [[97]]).1 ++ (streamRun ar0 true false fs0 [[98]]).1,
            (streamRun ar0 true false fs0 [[97]]).2
              ++ ([99], "E") :: (streamRun ar0 true false fs0 [[98]]).2)) :=
  ⟨⟨by decide, by decide, by rfl⟩,
    c4_stream_error_resilience ar0 true false fs0 [[97]] [[98]] [255] [99] "E"
      (by decide) (by decide) (by rfl)⟩

/-- C5: in stream-of-paths filter mode, a successfully classified path is
emitted if and only if the mode is `PassBlurry` and `overall_blurry` is
`true`, or the mode is `PassSharp` and `overall_blurry` is `false`; in the
default terse style the emitted record is the raw path bytes followed by a
trailing NUL byte. -/
theorem c5_filter_gate_and_terse_emission (ar : List Nat → StreamClassified → List Nat)
    (fs : List Nat → Except String StreamClassified) (mode : FilterMode)
    (pre post : List (List Nat)) (rec : List Nat) (r : StreamClassified)
    (hrec : validUTF8 rec = true) (hfs : fs rec = .ok r) :
    streamRun ar mode.blurMode false fs (pre ++ rec :: post)
      = ((streamRun ar mode.blurMode false fs pre).1
          ++ (if (mode = .passBlurry ∧ r.is_blurry = true)
                ∨ (mode = .passSharp ∧ r.is_blurry = false)
              then rec ++ [0] else [])
          ++ (streamRun ar mode.blurMode false fs post).1,
         (streamRun ar mode.blurMode false fs pre).2
           ++ (streamRun ar mode.blurMode false fs post).2) := by
  have hstep : recordStep ar mode.blurMode false fs rec
      = ((if (mode = .passBlurry ∧ r.is_blurry = true)
            ∨ (mode = .passSharp ∧ r.is_blurry = false)
          then rec ++ [0] else []), []) := by
    cases mode <;> cases hib : r.is_blurry <;>
      simp [recordStep, hrec, hfs, FilterMode.blurMode, hib]
  rw [streamRun_append]
  simp [streamRun, hstep]

/-- Witness for C5: a concrete classified record in `PassBlurry` mode is
re-emitted as its raw bytes plus a trailing NUL. -/
theorem c5_witness :
    (validUTF8 [97] = true ∧ fs0 [97] = .ok ⟨true, 0, 0, 0, 0, 0, none⟩)
    ∧ streamRun ar0 FilterMode.passBlurry.blurMode false fs0 ([] ++ [97] :: [])
        = ((streamRun ar0 FilterMode.passBlurry.blurMode false fs0 []).1
            ++ (if (FilterMode.passBlurry = .passBlurry
                    ∧ (⟨true, 0, 0, 0, 0, 0, none⟩ : StreamClassified).is_blurry = true)
                  ∨ (FilterMode.passBlurry = .passSharp
                    ∧ (⟨true, 0, 0, 0, 0, 0, none⟩ : StreamClassified).is_blurry = false)
                then [97] ++ [0] else [])
            ++ (streamRun ar0 FilterMode.passBlurry.blurMode false fs0 []).1,
           (streamRun ar0 FilterMode.passBlurry.blurMode false fs0 []).2
             ++ (streamRun ar0 FilterMode.passBlurry.blurMode false fs0 []).2) :=
  ⟨⟨by decide, by rfl⟩,
    c5_filter_gate_and_terse_emission ar0 fs0 .passBlurry [] [] [97]
      ⟨true, 0, 0, 0, 0, 0, none⟩ (by decide) (by rfl)⟩

/-- C6: in passthrough mode the bytes written to stdout are identical
byte-for-byte to the input stream, for every input (any number of
NUL-delimited records, with or without a trailing NUL): the mode is the
identity transformation and consults no classifier. -/
theorem c6_passthrough_identity : ∀ input : List Nat, passthroughRun input = input := by
  have key : ∀ n (l : List Nat), l.length ≤ n → passthroughRun l = l := by
    intro n
    induction n with
    | zero =>
      intro l hl
      have hnil : l = [] := List.eq_nil_of_length_eq_zero (Nat.le_zero.mp hl)
      subst hnil
      rw [passthroughRun]
      simp
    | succ n ih =>
      intro l hl
      by_cases h : l = []
      · subst h; rw [passthroughRun]; simp
      · rw [passthroughRun, dif_neg h]
        have hne := readUntil0_fst_ne l h
        have hlen := readUntil0_snd_lt l h
        have hrest : passthroughRun (readUntil0 l).2 = (readUntil0 l).2 :=
          ih _ (by omega)
        have hfst : (if (readUntil0 l).1.isEmpty then [] else (readUntil0 l).1)
            = (readUntil0 l).1 := by
          cases hfe : (readUntil0 l).1 with
          | nil => exact absurd hfe hne
          | cons a as => simp
        simp only [hfst, hrest, readUntil0_append]
  exact fun input => key input.length input le_rfl

/-- C8 (counterexample): the input `"a\0\0"` contains two consecutive NUL
bytes and therefore an empty record; the stream loop does NOT ignore it — it
decodes it as the empty path and attempts classification, and since opening
the empty path fails (encoded by the oracle `fs0`, as it does on any real
filesystem), a diagnostic for the empty record appears on the error
channel, contradicting the claim that no diagnostic is emitted. -/
theorem c8_counterexample :
    recordsOf [97, 0, 0] = [[97], []]
    ∧ streamRun ar0 true false fs0 (recordsOf [97, 0, 0]) = ([97, 0], [([], "E")]) := by
  have hrec : recordsOf [97, 0, 0] = [[97], []] := by
    rw [recordsOf, recordsOf, recordsOf]
    · simp [readUntil0, stripTrailingNul]
  refine ⟨hrec, ?_⟩
  rw [hrec]
  have h97 : validUTF8 [97] = true := by decide
  have hnil : validUTF8 [] = true := by decide
  have hf97 : fs0 [97] = .ok ⟨true, 0, 0, 0, 0, 0, none⟩ := by rfl
  have hfnil : fs0 [] = .error "E" := by rfl
  simp [streamRun, recordStep, h97, hnil, hf97, hfnil]

/-- C8 (amended): an empty record (two consecutive NUL bytes) is not
special-cased by the stream loop: it is decoded as the empty path (valid
UTF-8) and processed like any other record, so when opening the empty path
fails it produces exactly one diagnostic on the error channel and no output
record, and the remaining records are processed unchanged. -/
theorem c8_amended_empty_record (ar : List Nat → StreamClassified → List Nat)
    (bm ascii : Bool) (fs : List Nat → Except String StreamClassified)
    (pre post : List (List Nat)) (e : String) (hfs : fs [] = .error e) :
    streamRun ar bm ascii fs (pre ++ [] :: post)
      = ((streamRun ar bm ascii fs pre).1 ++ (streamRun ar bm ascii fs post).1,
         (streamRun ar bm ascii fs pre).2
           ++ ([], e) :: (streamRun ar bm ascii fs post).2) := by
  have h2 : recordStep ar bm ascii fs [] = ([], [([], e)]) := by
    have hnil : validUTF8 [] = true := by decide
    simp [recordStep, hnil, hfs]
  rw [streamRun_append]
  simp [streamRun, h2]

/-- Witness for the amended C8: a concrete stream with an empty record
between two ordinary records. -/
theorem c8_amended_witness :
    fs0 [] = .error "E"
    ∧ streamRun ar0 true false fs0 ([[97]] ++ [] :: [[98]])
        = ((streamRun ar0 true false fs0 [[97]]).1 ++ (streamRun ar0 true false fs0 [[98]]).1,
           (streamRun ar0 true false fs0 [[97]]).2
             ++ ([], "E") :: (streamRun ar0 true false fs0 [[98]]).2) :=
  ⟨by rfl, c8_amended_empty_record ar0 true false fs0 [[97]] [[98]] "E" (by rfl)⟩

end Grepfuzz
